import Mathlib

/-!
Verification of the real-time collaboration core of the canvas-editor
repository: the client collaboration service (`CollaborationClient` in the
client's `services/collaboration.ts`) and the collaboration hook
(`useCollaboration.ts`), together with the spec-level contracts of the
server-side Color Allocator and the CRDT merge engine, which are external
to the provided sources.
-/

namespace Collab

/-- A discrete canvas mutation, from the client service's `CanvasOperation`
interface: `{type, itemId?, itemIds?, data?, timestamp}`. The `data` payload
is opaque (`unknown` in the source) and modelled as an opaque string. -/
structure CanvasOperation where
  type : String
  itemId : Option String
  itemIds : Option (List String)
  data : Option String
  timestamp : Nat
deriving DecidableEq, Repr

/-- A participant as seen by the client, from the `Collaborator` interface:
`{id, name, color, cursor?, selectedIds?}`. -/
structure Collaborator where
  id : String
  name : String
  color : String
  cursor : Option (Int × Int)
  selectedIds : Option (List String)
deriving DecidableEq, Repr

/-- The local CRDT document replica. The yjs library is an external
dependency, not part of the repository sources; per the spec (§4.4, §3
"CRDT Delta") its merge is commutative, associative and idempotent, so the
document state is modelled as the set of CRDT state items it holds and a
delta as the set of items it carries. -/
abbrev YDoc : Type := Finset Nat

/-- The fresh, empty-history document created by `new Y.Doc()`. -/
def freshDoc : YDoc := (∅ : Finset Nat)

/-- Modelled from the spec: `Y.applyUpdate(doc, update)` of the external yjs
library. The spec's contract (§4.4) requires the merge to be idempotent and
commutative; a state-based merge (union of state items) realises it. -/
def applyUpdate (doc : YDoc) (delta : Finset Nat) : YDoc :=
  (doc : Finset Nat) ∪ delta

/-- The wire encoding of a CRDT delta used on the send side:
`Array.from(update)` turns the `Uint8Array` into a plain number array. -/
def arrayFrom (u : List (Fin 256)) : List Nat := u.map Fin.val

/-- The wire decoding used on the receive side (`yjs-update` and `yjs-state`
handlers): `new Uint8Array(data.update)` coerces each number to an octet
(reduction mod 256). -/
def toUint8Array (l : List Nat) : List (Fin 256) :=
  l.map (fun n => ⟨n % 256, Nat.mod_lt n (by decide)⟩)

/-- The mutable state of the `CollaborationClient` singleton:
`socket` (its existence and its `connected` flag), `doc`,
`currentProjectId`, `isConnected`, `myColor`, `myId`, `users`. -/
structure ClientState where
  socketExists : Bool
  socketConnected : Bool
  doc : Option YDoc
  currentProjectId : Option String
  isConnected : Bool
  myColor : String
  myId : String
  users : List Collaborator
deriving DecidableEq

/-- Messages the client emits over the socket
(`socket.emit(event, payload)`). -/
inductive ClientMsg where
  | joinRoomMsg (projectId userId userName : String)
  | leaveRoomMsg (projectId : String)
  | cursorMove (projectId : String) (x y : Int)
  | selectionChange (projectId : String) (selectedIds : List String)
  | yjsUpdateMsg (projectId : String) (update : List Nat)
  | canvasOp (projectId : String) (operation : CanvasOperation)
deriving DecidableEq

/-- `joinRoom(projectId, userId, userName)`: early-returns (warning only)
when `!this.socket?.connected`; otherwise sets `currentProjectId`,
installs a fresh `new Y.Doc()` and emits `join-room`. -/
def joinRoom (s : ClientState) (projectId userId userName : String) :
    ClientState × List ClientMsg :=
  if s.socketConnected then
    ({ s with currentProjectId := some projectId, doc := some freshDoc },
      [ClientMsg.joinRoomMsg projectId userId userName])
  else
    (s, [])

/-- `leaveRoom()`: early-returns when `!this.socket || !this.currentProjectId`;
otherwise emits `leave-room` and clears `currentProjectId`, `doc`, `users`. -/
def leaveRoom (s : ClientState) : ClientState × List ClientMsg :=
  match s.socketExists, s.currentProjectId with
  | true, some pid =>
      ({ s with currentProjectId := none, doc := none, users := [] },
        [ClientMsg.leaveRoomMsg pid])
  | _, _ => (s, [])

/-- `sendCursorMove(x, y)`: no-op unless `socket?.connected` and
`currentProjectId`; otherwise emits `cursor-move`. -/
def sendCursorMove (s : ClientState) (x y : Int) :
    ClientState × List ClientMsg :=
  match s.socketConnected, s.currentProjectId with
  | true, some pid => (s, [ClientMsg.cursorMove pid x y])
  | _, _ => (s, [])

/-- `sendSelectionChange(selectedIds)`: no-op unless `socket?.connected`
and `currentProjectId`; otherwise emits `selection-change`. -/
def sendSelectionChange (s : ClientState) (selectedIds : List String) :
    ClientState × List ClientMsg :=
  match s.socketConnected, s.currentProjectId with
  | true, some pid => (s, [ClientMsg.selectionChange pid selectedIds])
  | _, _ => (s, [])

/-- `sendYjsUpdate(update)`: no-op unless `socket?.connected` and
`currentProjectId`; otherwise emits `yjs-update` with
`update: Array.from(update)`. -/
def sendYjsUpdate (s : ClientState) (update : List (Fin 256)) :
    ClientState × List ClientMsg :=
  match s.socketConnected, s.currentProjectId with
  | true, some pid =>
      (s, [ClientMsg.yjsUpdateMsg pid (arrayFrom update)])
  | _, _ => (s, [])

/-- The argument of `sendCanvasOperation`: `Omit<CanvasOperation, 'timestamp'>`. -/
structure CanvasOpDraft where
  type : String
  itemId : Option String
  itemIds : Option (List String)
  data : Option String
deriving DecidableEq

/-- `sendCanvasOperation(operation)`: no-op unless `socket?.connected` and
`currentProjectId`; otherwise emits `canvas-operation` with the draft
completed by `timestamp: Date.now()`. -/
def sendCanvasOperation (s : ClientState) (op : CanvasOpDraft) (now : Nat) :
    ClientState × List ClientMsg :=
  match s.socketConnected, s.currentProjectId with
  | true, some pid =>
      (s, [ClientMsg.canvasOp pid
            ⟨op.type, op.itemId, op.itemIds, op.data, now⟩])
  | _, _ => (s, [])

/-- The `canvas-operation` event payload: `{operation, fromUserId}`. -/
structure CanvasOpMessage where
  operation : CanvasOperation
  fromUserId : String
deriving DecidableEq

/-- The client's `canvas-operation` handler: invokes
`callbacks.onCanvasOperation?.(data.operation, data.fromUserId)` only when
`data.fromUserId !== this.myId`. `registered` says whether a callback is
installed (`?.`); the result records the invocation's arguments, `none`
meaning no invocation. -/
def handleCanvasOperation (myId : String) (registered : Bool)
    (msg : CanvasOpMessage) : Option (CanvasOperation × String) :=
  if msg.fromUserId ≠ myId then
    (if registered then some (msg.operation, msg.fromUserId) else none)
  else
    none

/-- The client's `yjs-update` handler: decodes the wire payload and, when a
local document exists, merges it via `Y.applyUpdate`. -/
def handleYjsUpdate (s : ClientState) (delta : Finset Nat) : ClientState :=
  match s.doc with
  | some d => { s with doc := some (applyUpdate d delta) }
  | none => s

/-- A remote cursor tracked by the hook's `remoteCursors` map:
`{id, name, color, x, y, timestamp}`. -/
structure RemoteCursor where
  id : String
  name : String
  color : String
  x : Int
  y : Int
  timestamp : Nat
deriving DecidableEq, Repr

/-- The hook's liveness window for remote cursors (3000 ms). -/
def cursorTimeoutMs : Nat := 3000

/-- The hook's periodic cleanup pass over `remoteCursors`: deletes every
entry with `now - cursor.timestamp > 3000`, keeps the rest. The JS `Map` is
modelled as its entry list. -/
def cleanupCursors (now : Nat) (cursors : List (String × RemoteCursor)) :
    List (String × RemoteCursor) :=
  cursors.filter (fun kv => !(decide (now - kv.2.timestamp > cursorTimeoutMs)))

/-- The key under which the client's `cursor-update` handler reads the
originating participant's id: the source destructures `data.oderId`
(commented in the source as a backend typo kept for consistency). -/
def cursorUpdateOriginatorKey : String := "oderId"

/-- The client's `cursor-update` handler's read of the originator id from
the wire payload, modelled as a JSON-field lookup by key. -/
def readCursorUpdateOriginator (payload : List (String × String)) :
    Option String :=
  (payload.find? (fun kv => kv.1 == cursorUpdateOriginatorKey)).map Prod.snd

/-- A remote selection tracked by the hook's `remoteSelections` map:
`{userId, selectedIds, color}`. -/
structure RemoteSelection where
  userId : String
  selectedIds : List String
  color : String
deriving DecidableEq, Repr

/-- JS `Map.set`: replaces the value under an existing key, otherwise
appends the new entry (insertion order preserved). -/
def mapSet (k : String) (v : RemoteSelection)
    (m : List (String × RemoteSelection)) : List (String × RemoteSelection) :=
  if m.any (fun kv => kv.1 == k) then
    m.map (fun kv => if kv.1 == k then (k, v) else kv)
  else
    m ++ [(k, v)]

/-- JS `Map.delete`: removes the entry under the key, if any. -/
def mapDelete (k : String) (m : List (String × RemoteSelection)) :
    List (String × RemoteSelection) :=
  m.filter (fun kv => !(kv.1 == k))

/-- The hook's `onSelectionUpdate` callback: records the selection under
the sender's id when `selectedIds.length > 0`, otherwise deletes the
sender's entry from `remoteSelections`. -/
def applySelectionUpdate (userId : String) (selectedIds : List String)
    (color : String) (m : List (String × RemoteSelection)) :
    List (String × RemoteSelection) :=
  if 0 < selectedIds.length then
    mapSet userId ⟨userId, selectedIds, color⟩ m
  else
    mapDelete userId m

/-- Modelled from the spec: the server-side Color Allocator (§4.2) is not
among the provided sources (only the client half of the collaboration core
is). Per the spec it keeps a fixed ordered palette and, on join, selects
the first palette color not currently in use within the room; when all are
in use it cycles, reusing palette entries. -/
def allocateColor (palette : List String) (inUse : List String) : String :=
  match palette.find? (fun c => !(inUse.contains c)) with
  | some c => c
  | none => palette.getD (inUse.length % palette.length) ""

/-- Modelled from the spec: a join or leave event on one room as handled
by the server's Room Registry (§4.1). -/
inductive RoomEvent where
  | join (pid : String)
  | leave (pid : String)
deriving DecidableEq, Repr

/-- Modelled from the spec: the Room Registry's handling of one event.
Room state is the list of (participantId, color) pairs in join order; a
join of a new participant allocates a color against the colors currently
in use, a leave removes the participant's entry (releasing its color). -/
def roomStep (palette : List String) (st : List (String × String)) :
    RoomEvent → List (String × String)
  | RoomEvent.join pid =>
      if st.any (fun kv => kv.1 == pid) then st
      else st ++ [(pid, allocateColor palette (st.map Prod.snd))]
  | RoomEvent.leave pid => st.filter (fun kv => !(kv.1 == pid))

/-- A room's state after a sequence of join/leave events, starting from
the empty room created on first join. -/
def runRoom (palette : List String) (evs : List RoomEvent) :
    List (String × String) :=
  evs.foldl (roomStep palette) []

/-- Checks that along the event trace from `st` the room's participant
count stays at most the palette size (the palette never runs out). -/
def boundedTrace (palette : List String) (st : List (String × String)) :
    List RoomEvent → Bool
  | [] => true
  | e :: rest =>
      decide ((roomStep palette st e).length ≤ palette.length) &&
        boundedTrace palette (roomStep palette st e) rest

/-- One call to the hook's `sendCursorMove`: the instant (`Date.now()`)
at which it is made and the position supplied by the caller. -/
structure CursorCall where
  time : Nat
  x : Int
  y : Int
deriving DecidableEq, Repr

/-- The hook's throttle interval for outgoing cursor moves (50 ms). -/
def cursorThrottleMs : Nat := 50

/-- The hook's throttled `sendCursorMove` over a sequence of calls,
threading `lastCursorUpdateRef` (initially 0): a call arriving within
`cursorThrottleMs` of the last accepted one returns without sending;
otherwise the ref is set to the call's time and the call's position is
emitted. Returns the emitted messages in order. -/
def runThrottle (last : Nat) : List CursorCall → List CursorCall
  | [] => []
  | c :: rest =>
      if c.time - last < cursorThrottleMs then runThrottle last rest
      else c :: runThrottle c.time rest

end Collab

namespace Collab

/-- C1: the `canvas-operation` handler invokes the registered callback
iff the message's `fromUserId` differs from the local participant's id,
and the invocation passes the message's operation and originator through. -/
theorem canvasOperation_dispatch_iff_remote (myId : String)
    (registered : Bool) (msg : CanvasOpMessage)
    (hreg : registered = true) :
    ((handleCanvasOperation myId registered msg).isSome ↔
      msg.fromUserId ≠ myId) ∧
    (msg.fromUserId ≠ myId →
      handleCanvasOperation myId registered msg =
        some (msg.operation, msg.fromUserId)) := by
  subst hreg
  unfold handleCanvasOperation
  by_cases h : msg.fromUserId = myId <;> simp [h]

/-- Witness for C1 at a concrete remote and a concrete local message. -/
theorem canvasOperation_dispatch_iff_remote_witness :
    (true = true) ∧
    (((handleCanvasOperation "me" true ⟨⟨"add", none, none, none, 0⟩, "you"⟩).isSome ↔
        ("you" : String) ≠ "me") ∧
      (("you" : String) ≠ "me" →
        handleCanvasOperation "me" true ⟨⟨"add", none, none, none, 0⟩, "you"⟩ =
          some (⟨"add", none, none, none, 0⟩, "you"))) :=
  ⟨rfl, canvasOperation_dispatch_iff_remote "me" true
    ⟨⟨"add", none, none, none, 0⟩, "you"⟩ rfl⟩

/-- C8: each outbound function of the client service — `sendCursorMove`,
`sendSelectionChange`, `sendCanvasOperation` — emits no message and leaves
the client state unchanged whenever the socket is not connected or no room
is currently joined (`currentProjectId` unset). -/
theorem send_functions_noop_when_not_joined (s : ClientState)
    (x y : Int) (selectedIds : List String) (op : CanvasOpDraft) (now : Nat)
    (h : s.socketConnected = false ∨ s.currentProjectId = none) :
    sendCursorMove s x y = (s, []) ∧
    sendSelectionChange s selectedIds = (s, []) ∧
    sendCanvasOperation s op now = (s, []) := by
  unfold sendCursorMove sendSelectionChange sendCanvasOperation
  rcases h with h | h <;> rw [h] <;>
    rcases hc : s.socketConnected <;> rcases hp : s.currentProjectId <;>
      simp_all

/-- Witness for C8: a disconnected client state. -/
theorem send_functions_noop_when_not_joined_witness :
    ((false : Bool) = false ∨
      (none : Option String) = none) ∧
    (sendCursorMove
        ⟨false, false, none, some "p", false, "", "me", []⟩ 1 2 =
      (⟨false, false, none, some "p", false, "", "me", []⟩, []) ∧
    sendSelectionChange
        ⟨false, false, none, some "p", false, "", "me", []⟩ ["a"] =
      (⟨false, false, none, some "p", false, "", "me", []⟩, []) ∧
    sendCanvasOperation
        ⟨false, false, none, some "p", false, "", "me", []⟩
        ⟨"add", none, none, none⟩ 7 =
      (⟨false, false, none, some "p", false, "", "me", []⟩, [])) :=
  ⟨Or.inl rfl,
    send_functions_noop_when_not_joined
      ⟨false, false, none, some "p", false, "", "me", []⟩
      1 2 ["a"] ⟨"add", none, none, none⟩ 7 (Or.inl rfl)⟩

/-- C9 counterexample: a `joinRoom` call made while the socket is not
connected installs nothing — the stale, non-empty document of the previous
session is retained, so not every `joinRoom` call installs a fresh empty
replica. -/
theorem joinRoom_disconnected_keeps_stale_doc :
    (joinRoom
        ⟨true, false, some {3}, some "old", false, "", "me", []⟩
        "p" "u" "n").fst.doc = some ({3} : Finset Nat) ∧
    some ({3} : Finset Nat) ≠ some (freshDoc : YDoc) := by
  constructor
  · rfl
  · simp only [freshDoc]
    decide

/-- C9 amended: a `joinRoom` call made while the socket is connected
installs a freshly created, empty CRDT replica (no history carried over),
and a `leaveRoom` call made while a socket exists and a room is joined
discards the local replica. -/
theorem joinRoom_fresh_doc_leaveRoom_discards
    (s t : ClientState) (projectId userId userName pid : String)
    (hjoin : s.socketConnected = true)
    (hsock : t.socketExists = true) (hpid : t.currentProjectId = some pid) :
    (joinRoom s projectId userId userName).fst.doc = some freshDoc ∧
    freshDoc = (∅ : Finset Nat) ∧
    (leaveRoom t).fst.doc = none := by
  refine ⟨?_, rfl, ?_⟩
  · unfold joinRoom
    rw [hjoin]
    simp
  · unfold leaveRoom
    rw [hsock, hpid]

/-- Witness for C9's amended theorem: a connected joining client and an
in-room leaving client. -/
theorem joinRoom_fresh_doc_leaveRoom_discards_witness :
    ((true : Bool) = true ∧ (true : Bool) = true ∧
      (some "p" : Option String) = some "p") ∧
    ((joinRoom ⟨true, true, some {3}, some "old", true, "", "me", []⟩
        "p" "u" "n").fst.doc = some freshDoc ∧
      freshDoc = (∅ : Finset Nat) ∧
      (leaveRoom ⟨true, true, some {5}, some "p", true, "", "me", []⟩).fst.doc =
        none) :=
  ⟨⟨rfl, rfl, rfl⟩,
    joinRoom_fresh_doc_leaveRoom_discards
      ⟨true, true, some {3}, some "old", true, "", "me", []⟩
      ⟨true, true, some {5}, some "p", true, "", "me", []⟩
      "p" "u" "n" "p" rfl rfl rfl⟩

/-- Color-allocation invariant, preserved along any trace in which the
participant count never exceeds the palette size: the colors in use are
pairwise distinct and drawn from the palette. -/
theorem roomTrace_colors_nodup (palette : List String) (hpal : palette.Nodup) :
    ∀ (evs : List RoomEvent) (st : List (String × String)),
      (st.map Prod.snd).Nodup →
      (∀ c ∈ st.map Prod.snd, c ∈ palette) →
      boundedTrace palette st evs = true →
      ((evs.foldl (roomStep palette) st).map Prod.snd).Nodup ∧
        ∀ c ∈ (evs.foldl (roomStep palette) st).map Prod.snd, c ∈ palette := by
  intro evs
  induction evs with
  | nil => intro st h1 h2 _; exact ⟨h1, h2⟩
  | cons e rest ih =>
      intro st h1 h2 hb
      unfold boundedTrace at hb
      rw [Bool.and_eq_true, decide_eq_true_eq] at hb
      obtain ⟨hb1, hb2⟩ := hb
      rw [List.foldl_cons]
      have hstep : ((roomStep palette st e).map Prod.snd).Nodup ∧
          ∀ c ∈ (roomStep palette st e).map Prod.snd, c ∈ palette := by
        cases e with
        | leave pid =>
            have hsub : ((st.filter (fun kv => !(kv.1 == pid))).map
                Prod.snd).Sublist (st.map Prod.snd) :=
              (List.filter_sublist st).map Prod.snd
            exact ⟨h1.sublist hsub, fun c hc => h2 c (hsub.subset hc)⟩
        | join pid =>
            simp only [roomStep] at hb1 ⊢
            by_cases hmem : st.any (fun kv => kv.1 == pid)
            · rw [if_pos hmem]
              exact ⟨h1, h2⟩
            · rw [if_neg hmem] at hb1 ⊢
              have hlen : st.length + 1 ≤ palette.length := by
                simpa using hb1
              have hused : (st.map Prod.snd).length < palette.length := by
                rw [List.length_map]
                omega
              have hex : ∃ col ∈ palette,
                  (!((st.map Prod.snd).contains col)) = true := by
                by_contra hno
                push_neg at hno
                have hsubset : palette ⊆ st.map Prod.snd := by
                  intro col hcol
                  have := hno col hcol
                  simpa using this
                have := (List.subperm_of_subset hpal hsubset).length_le
                omega
              obtain ⟨ca, hfind⟩ := Option.isSome_iff_exists.mp
                (List.find?_isSome.mpr hex)
              have hca_pal : ca ∈ palette := List.mem_of_find?_eq_some hfind
              have hca_new : ca ∉ st.map Prod.snd := by
                have := List.find?_some hfind
                simpa using this
              have halloc : allocateColor palette (st.map Prod.snd) = ca := by
                unfold allocateColor
                rw [hfind]
              rw [halloc, List.map_append]
              constructor
              · refine List.Nodup.append h1 ?_ ?_
                · simp
                · intro a ha ha'
                  simp only [List.map_cons, List.map_nil,
                    List.mem_singleton] at ha'
                  exact hca_new (ha' ▸ ha)
              · intro c hc
                rcases List.mem_append.mp hc with hc | hc
                · exact h2 c hc
                · simp only [List.map_cons, List.map_nil,
                    List.mem_singleton] at hc
                  exact hc ▸ hca_pal
      exact ih (roomStep palette st e) hstep.1 hstep.2 hb2

/-- C3: along any room history whose participant count never exceeds the
palette size, the Color Allocator never assigns the same color to two
simultaneously present participants. -/
theorem colorAllocator_unique (palette : List String) (evs : List RoomEvent)
    (hpal : palette.Nodup)
    (hbound : boundedTrace palette [] evs = true) :
    ((runRoom palette evs).map Prod.snd).Nodup ∧
    (runRoom palette evs).Pairwise (fun p q => p.2 ≠ q.2) := by
  have h := roomTrace_colors_nodup palette hpal evs [] List.nodup_nil
    (by simp) hbound
  refine ⟨h.1, ?_⟩
  have hp : ((runRoom palette evs).map Prod.snd).Pairwise
      (fun a b => a ≠ b) := h.1
  rw [List.pairwise_map] at hp
  exact hp

/-- Witness for C3: a two-color palette with joins and a leave that keep
the room within the palette size. -/
theorem colorAllocator_unique_witness :
    ((["red", "blue"] : List String).Nodup ∧
      boundedTrace ["red", "blue"] []
        [RoomEvent.join "A", RoomEvent.join "B",
          RoomEvent.leave "A", RoomEvent.join "C"] = true) ∧
    (((runRoom ["red", "blue"]
        [RoomEvent.join "A", RoomEvent.join "B",
          RoomEvent.leave "A", RoomEvent.join "C"]).map Prod.snd).Nodup ∧
      (runRoom ["red", "blue"]
        [RoomEvent.join "A", RoomEvent.join "B",
          RoomEvent.leave "A", RoomEvent.join "C"]).Pairwise
        (fun p q => p.2 ≠ q.2)) :=
  ⟨⟨by decide, by decide⟩,
    colorAllocator_unique ["red", "blue"]
      [RoomEvent.join "A", RoomEvent.join "B",
        RoomEvent.leave "A", RoomEvent.join "C"]
      (by decide) (by decide)⟩

/-- The throttle only ever emits a subsequence of the calls made. -/
theorem runThrottle_sublist (last : Nat) (calls : List CursorCall) :
    (runThrottle last calls).Sublist calls := by
  induction calls generalizing last with
  | nil => exact List.Sublist.refl []
  | cons c rest ih =>
      unfold runThrottle
      by_cases h : c.time - last < cursorThrottleMs
      · rw [if_pos h]
        exact (ih last).cons c
      · rw [if_neg h]
        exact (ih c.time).cons₂ c

/-- Every message the throttle emits is at least one full interval after
the reference instant it starts from. -/
theorem runThrottle_time_ge (last : Nat) (calls : List CursorCall) :
    ∀ e ∈ runThrottle last calls, last + cursorThrottleMs ≤ e.time := by
  induction calls generalizing last with
  | nil => intro e he; cases he
  | cons c rest ih =>
      intro e he
      unfold runThrottle at he
      by_cases h : c.time - last < cursorThrottleMs
      · rw [if_pos h] at he
        exact ih last e he
      · rw [if_neg h] at he
        have hc : last + cursorThrottleMs ≤ c.time := by
          unfold cursorThrottleMs at h ⊢
          omega
        rcases List.mem_cons.mp he with rfl | he'
        · exact hc
        · have := ih c.time e he'
          omega

/-- Consecutive emitted messages are at least one throttle interval apart. -/
theorem runThrottle_chain (last : Nat) (calls : List CursorCall) :
    (runThrottle last calls).Chain'
      (fun a b => a.time + cursorThrottleMs ≤ b.time) := by
  induction calls generalizing last with
  | nil => exact List.chain'_nil
  | cons c rest ih =>
      unfold runThrottle
      by_cases h : c.time - last < cursorThrottleMs
      · rw [if_pos h]
        exact ih last
      · rw [if_neg h]
        refine List.chain'_cons'.mpr ⟨?_, ih c.time⟩
        intro y hy
        exact runThrottle_time_ge c.time rest y (List.mem_of_mem_head? hy)

/-- C4: over any sequence of `sendCursorMove` calls at strictly increasing
instants, the throttle (ref starting at 0) emits a subsequence of the
calls, any two consecutive emissions are at least 50 ms apart (at most one
message per 50 ms interval), and each emitted message is the very call that
triggered it — its position is the most recent one supplied up to the
emission instant, never an earlier stale one. -/
theorem sendCursorMove_throttled (calls : List CursorCall)
    (hmono : calls.Pairwise (fun a b => a.time < b.time)) :
    (runThrottle 0 calls).Sublist calls ∧
    (runThrottle 0 calls).Chain'
      (fun a b => a.time + cursorThrottleMs ≤ b.time) ∧
    (∀ e ∈ runThrottle 0 calls, e ∈ calls ∧
      ∀ c ∈ calls, c.time ≤ e.time → c = e ∨ c.time < e.time) := by
  refine ⟨runThrottle_sublist 0 calls, runThrottle_chain 0 calls, ?_⟩
  intro e he
  have hecalls : e ∈ calls := (runThrottle_sublist 0 calls).subset he
  refine ⟨hecalls, ?_⟩
  intro c hc hle
  by_cases hce : c = e
  · exact Or.inl hce
  · right
    have hne : c.time ≠ e.time := by
      have hpw : calls.Pairwise (fun a b : CursorCall => a.time ≠ b.time) :=
        hmono.imp (fun h => Nat.ne_of_lt h)
      exact hpw.forall (fun a b h => h.symm) hc hecalls hce
    omega

/-- Witness for C4: three calls at 100, 120 and 200 ms; the call at 120 ms
falls inside the throttle window and is dropped. -/
theorem sendCursorMove_throttled_witness :
    ([⟨100, 1, 2⟩, ⟨120, 3, 4⟩, ⟨200, 5, 6⟩] : List CursorCall).Pairwise
        (fun a b => a.time < b.time) ∧
    ((runThrottle 0 [⟨100, 1, 2⟩, ⟨120, 3, 4⟩, ⟨200, 5, 6⟩]).Sublist
        [⟨100, 1, 2⟩, ⟨120, 3, 4⟩, ⟨200, 5, 6⟩] ∧
      (runThrottle 0 [⟨100, 1, 2⟩, ⟨120, 3, 4⟩, ⟨200, 5, 6⟩]).Chain'
        (fun a b => a.time + cursorThrottleMs ≤ b.time) ∧
      (∀ e ∈ runThrottle 0 [⟨100, 1, 2⟩, ⟨120, 3, 4⟩, ⟨200, 5, 6⟩],
        e ∈ ([⟨100, 1, 2⟩, ⟨120, 3, 4⟩, ⟨200, 5, 6⟩] : List CursorCall) ∧
        ∀ c ∈ ([⟨100, 1, 2⟩, ⟨120, 3, 4⟩, ⟨200, 5, 6⟩] : List CursorCall),
          c.time ≤ e.time → c = e ∨ c.time < e.time)) :=
  ⟨by decide,
    sendCursorMove_throttled [⟨100, 1, 2⟩, ⟨120, 3, 4⟩, ⟨200, 5, 6⟩]
      (by decide)⟩

/-- C5: a cleanup pass at time `now` retains a cursor entry exactly when
its last refresh is at most 3000 ms old; entries more than 3000 ms old are
removed and all others kept. -/
theorem cleanupCursors_retains_iff_fresh (now : Nat)
    (cursors : List (String × RemoteCursor)) (kv : String × RemoteCursor) :
    kv ∈ cleanupCursors now cursors ↔
      kv ∈ cursors ∧ now - kv.2.timestamp ≤ cursorTimeoutMs := by
  unfold cleanupCursors
  rw [List.mem_filter]
  simp [Nat.not_lt]

/-- C6 counterexample: the client's `cursor-update` handler does not read
the originator id from a field named `participantId` — a payload carrying
the id only under `participantId` yields no originator, while the actual
key the handler reads is `oderId`. -/
theorem cursorUpdate_participantId_not_read :
    readCursorUpdateOriginator
        [("participantId", "A"), ("color", "red"), ("name", "Bo")] = none ∧
    cursorUpdateOriginatorKey ≠ "participantId" := by
  constructor
  · rfl
  · decide

/-- C6 amended: the `cursor-update` payload identifies the originating
participant under the field named `oderId` (a preserved backend typo), and
the client reads the originator id from that field. -/
theorem cursorUpdate_reads_oderId (id : String)
    (rest : List (String × String)) :
    readCursorUpdateOriginator (("oderId", id) :: rest) = some id := by
  unfold readCursorUpdateOriginator cursorUpdateOriginatorKey
  simp [List.find?]

/-- C7 counterexample: on the receiving client, the state after a
selection-update carrying an empty set equals the state in which no
selection-update was ever received — starting from the empty
`remoteSelections` map, the empty-set update leaves it empty, so the two
are not observably distinguishable. -/
theorem emptySelection_equals_never_set :
    applySelectionUpdate "A" [] "red" [] =
      ([] : List (String × RemoteSelection)) := rfl

/-- C7 amended: on the receiving client an empty-set selection-update
deletes the sender's entry, so for a sender with no recorded entry it
leaves the map exactly in the never-received state; a non-empty
selection-update records the sender's selection. -/
theorem selectionUpdate_empty_erases (u c : String) (ids : List String)
    (m : List (String × RemoteSelection))
    (hfresh : ∀ kv ∈ m, kv.1 ≠ u) (hne : ids ≠ []) :
    applySelectionUpdate u [] c m = m ∧
    (u, (⟨u, ids, c⟩ : RemoteSelection)) ∈ applySelectionUpdate u ids c m := by
  constructor
  · unfold applySelectionUpdate mapDelete
    simp only [List.length_nil]
    rw [if_neg (by omega)]
    apply List.filter_eq_self.mpr
    intro kv hkv
    simpa using hfresh kv hkv
  · unfold applySelectionUpdate mapSet
    have hlen : 0 < ids.length := List.length_pos.mpr hne
    rw [if_pos hlen]
    have hany : m.any (fun kv => kv.1 == u) = false := by
      rw [List.any_eq_false]
      intro kv hkv
      simpa using hfresh kv hkv
    rw [if_neg (by simp [hany])]
    exact List.mem_append_right m (List.mem_singleton.mpr rfl)

/-- Witness for C7's amended theorem: sender `A` updates a map holding only
an entry for `B`. -/
theorem selectionUpdate_empty_erases_witness :
    ((∀ kv ∈ [(("B" : String), (⟨"B", ["z"], "blue"⟩ : RemoteSelection))],
        kv.1 ≠ "A") ∧ (["i1"] : List String) ≠ []) ∧
    (applySelectionUpdate "A" [] "red"
        [("B", ⟨"B", ["z"], "blue"⟩)] = [("B", ⟨"B", ["z"], "blue"⟩)] ∧
      ("A", (⟨"A", ["i1"], "red"⟩ : RemoteSelection)) ∈
        applySelectionUpdate "A" ["i1"] "red" [("B", ⟨"B", ["z"], "blue"⟩)]) :=
  ⟨⟨by decide, by decide⟩,
    selectionUpdate_empty_erases "A" "red" ["i1"]
      [("B", ⟨"B", ["z"], "blue"⟩)] (by decide) (by decide)⟩

/-- C10: the number-array wire representation of CRDT deltas is a lossless
round-trip — decoding (`new Uint8Array(data.update)`) the send-side
encoding (`Array.from(u)`, as emitted by `sendYjsUpdate`) reproduces the
original byte array exactly. -/
theorem yjs_wire_roundtrip (u : List (Fin 256)) :
    toUint8Array (arrayFrom u) = u := by
  unfold toUint8Array arrayFrom
  induction u with
  | nil => rfl
  | cons b rest ih =>
      simp only [List.map_cons, List.cons.injEq]
      exact ⟨Fin.ext (Nat.mod_eq_of_lt b.isLt), ih⟩

/-- C2: the merge used by the `yjs-update` handler is idempotent — handling
the same delta twice leaves the client in the same state as handling it
once. -/
theorem yjsUpdate_merge_idempotent (s : ClientState) (delta : Finset Nat) :
    handleYjsUpdate (handleYjsUpdate s delta) delta = handleYjsUpdate s delta := by
  unfold handleYjsUpdate
  rcases hd : s.doc with _ | d
  · rw [hd]
  · simp [applyUpdate, Finset.union_assoc, Finset.union_self]

end Collab
